import Mathlib

/-!
Verification development for the VeritasAI frontend's result-normalization
and presentation engine.

The definitions below are a shallow embedding of the JavaScript source:

* `sortedAndFilteredCases`, `getCaseDate`, comparators and filters come from
  `frontend/src/components/QueryParser.js` (the full search screen variant);
* `extractJson`, `fenceMatch`, `braceMatch` and `StatusBadge` come from
  `frontend/src/components/CitationsSection.js`;
* `displayTitleResults`, `renderedCitations`, `moreCitationsNote` come from
  `frontend/src/components/Results.js`;
* the history-click event model (`ChatState`, `step`, `runEvents`) comes from
  the history item `onClick` handler in
  `frontend/src/components/ChatInterface.js`.

JavaScript strings are modelled as `String`/`List Char`; `undefined`/missing
object fields are modelled as `Option`; JS `||`-fallbacks are modelled with
explicit truthiness helpers (`""`, `0`, `null`/`undefined` are falsy).
`Array.prototype.sort` with a comparator `cmp` is modelled as Mathlib's
stable `List.insertionSort` with the relation `fun a b => cmp a b ≤ 0`:
ECMAScript mandates a stable sort, and for a consistent comparator the
stable sorted permutation is unique, so any compliant engine agrees with
this model.
-/

/-- JS string fallback `a || d` for a possibly-undefined string `a`:
`undefined`, `null` and `""` are falsy and select the default. -/
def jsOrS (a : Option String) (d : String) : String :=
  match a with
  | some s => if s = "" then d else s
  | none => d

/-- JS truthiness of a possibly-undefined string (`""` is falsy). -/
def truthyS (a : Option String) : Bool :=
  match a with
  | some s => !(s = "")
  | none => false

/-- Three-way comparison of characters by code point, as JS string
comparison does on UTF-16 units (identical on the ASCII data handled here). -/
def charCmp (a b : Char) : Ordering :=
  if a < b then .lt else if b < a then .gt else .eq

/-- Lexicographic three-way comparison of character lists; the model of the
default-locale `String.prototype.localeCompare` on the ASCII strings
(ISO dates, court names) this frontend compares. -/
def lexCmpCh : List Char → List Char → Ordering
  | [], [] => .eq
  | [], _ :: _ => .lt
  | _ :: _, [] => .gt
  | a :: as, b :: bs =>
    match charCmp a b with
    | .eq => lexCmpCh as bs
    | o => o

/-- Model of `s.localeCompare(t)`: negative, zero or positive. -/
def localeCompare (s t : String) : Int :=
  match lexCmpCh s.data t.data with
  | .lt => -1
  | .eq => 0
  | .gt => 1

/-- First index at which `pat` occurs as a contiguous run inside `s`
(leftmost match, as a JS regex/`includes` search finds it). -/
def findSub (pat : List Char) : List Char → Option Nat
  | [] => if List.isPrefixOf pat [] then some 0 else none
  | c :: rest =>
    if List.isPrefixOf pat (c :: rest) then some 0
    else (findSub pat rest).map (· + 1)

/-- Case-insensitive substring test, the model of
`s.toLowerCase().includes(sub.toLowerCase())` (ASCII lowercasing). -/
def containsCI (s sub : String) : Bool :=
  (findSub (sub.data.map Char.toLower) (s.data.map Char.toLower)).isSome

/-! ### Canonical backend case record, as consumed by the frontend

Shape follows the backend response schema the components destructure:
`case_id`, `title`/`case_name`, `court`, `date`, `decision`,
`citations_count`, `legal_citations`, `related_precedents`, `summary`
(either free text or a structured object). Missing fields are `none`. -/

structure Precedent where
  title : Option String
  court : Option String
  date : Option String
  id : Option String
deriving DecidableEq, Repr

structure SummaryObj where
  issue : Option String
  court : Option String
  «case» : Option String
  decision : Option String
deriving DecidableEq, Repr

/-- The `summary` field arrives either as plain text or as a structured
object; member access like `summary?.court` is `undefined` on the text form. -/
inductive SummaryVal where
  | text (s : String)
  | obj (o : SummaryObj)
deriving DecidableEq, Repr

structure CaseItem where
  case_id : Option String
  title : Option String
  case_name : Option String
  court : Option String
  date : Option String
  decision : Option String
  citations_count : Option Int
  legal_citations : Option (List String)
  related_precedents : Option (List Precedent)
  summary : Option SummaryVal
deriving DecidableEq, Repr

/-- A fully absent case record (every backend field missing). -/
def blankCase : CaseItem :=
  ⟨none, none, none, none, none, none, none, none, none, none⟩

/-- Model of `caseItem.summary?.court`. -/
def summaryCourt (c : CaseItem) : Option String :=
  match c.summary with
  | some (.obj o) => o.court
  | _ => none

/-- Model of `caseItem.summary?.case`. -/
def summaryCase (c : CaseItem) : Option String :=
  match c.summary with
  | some (.obj o) => o.«case»
  | _ => none

/-- Model of `caseItem.related_precedents?.[0]?.date`. -/
def firstPrecedentDate (c : CaseItem) : Option String :=
  match c.related_precedents with
  | some (p :: _) => p.date
  | _ => none

/-- QueryParser.js `getCaseDate`: the case's own `date` if truthy, else the
first related precedent's date if truthy, else `""`. -/
def getCaseDate (c : CaseItem) : String :=
  if truthyS c.date then c.date.getD ""
  else if truthyS (firstPrecedentDate c) then (firstPrecedentDate c).getD ""
  else ""

/-- QueryParser.js court accessor `(c.court || c.summary?.court || "")`. -/
def courtString (c : CaseItem) : String :=
  jsOrS c.court (jsOrS (summaryCourt c) "")

/-- QueryParser.js citation-count accessor `(c.citations_count || 0)`. -/
def citationsCount (c : CaseItem) : Int :=
  c.citations_count.getD 0

/-- The QueryParser component state consulted by `sortedAndFilteredCases`
and `handleSubmit`: `courtFilter`, `minCitations` (already coerced by
`Number(minCitations) || 0`), `sortBy`, and the `page`/`perPage` values that
are only ever sent to the backend in the request body. -/
structure ViewState where
  courtFilter : String
  minCitations : Int
  sortBy : String
  page : Nat
  perPage : Nat
deriving DecidableEq, Repr

/-- The two filter stages of `sortedAndFilteredCases`: the court filter runs
only when `courtFilter` is truthy; the citation-count filter always runs. -/
def filteredCases (st : ViewState) (cases : List CaseItem) : List CaseItem :=
  let cases1 :=
    if st.courtFilter = "" then cases
    else cases.filter (fun c => containsCI (courtString c) st.courtFilter)
  cases1.filter (fun c => decide (st.minCitations ≤ citationsCount c))

/-- Comparator `(a, b) => getCaseDate(b).localeCompare(getCaseDate(a))`
(the `|| ""` fallbacks in the source are redundant: `getCaseDate` already
returns `""`). -/
def cmpNewest (a b : CaseItem) : Int :=
  localeCompare (getCaseDate b) (getCaseDate a)

/-- Comparator `(a, b) => getCaseDate(a).localeCompare(getCaseDate(b))`. -/
def cmpOldest (a b : CaseItem) : Int :=
  localeCompare (getCaseDate a) (getCaseDate b)

/-- Comparator `(a, b) => (b.citations_count || 0) - (a.citations_count || 0)`. -/
def cmpMostCited (a b : CaseItem) : Int :=
  citationsCount b - citationsCount a

/-- Comparator `(a, b) => (a.citations_count || 0) - (b.citations_count || 0)`. -/
def cmpLeastCited (a b : CaseItem) : Int :=
  citationsCount a - citationsCount b

/-- The sort relation induced by a JS comparator: `a` may precede `b`
exactly when the comparator does not order `b` strictly first. -/
def leNewest (a b : CaseItem) : Prop := cmpNewest a b ≤ 0

def leOldest (a b : CaseItem) : Prop := cmpOldest a b ≤ 0

def leMostCited (a b : CaseItem) : Prop := cmpMostCited a b ≤ 0

def leLeastCited (a b : CaseItem) : Prop := cmpLeastCited a b ≤ 0

instance : DecidableRel leNewest :=
  fun a b => inferInstanceAs (Decidable (cmpNewest a b ≤ 0))

instance : DecidableRel leOldest :=
  fun a b => inferInstanceAs (Decidable (cmpOldest a b ≤ 0))

instance : DecidableRel leMostCited :=
  fun a b => inferInstanceAs (Decidable (cmpMostCited a b ≤ 0))

instance : DecidableRel leLeastCited :=
  fun a b => inferInstanceAs (Decidable (cmpLeastCited a b ≤ 0))

/-- The `sortBy` dispatch of `sortedAndFilteredCases`: each branch is the
stable JS `Array.prototype.sort` under the branch's comparator; any other
`sortBy` value leaves the list untouched. -/
def sortCases (sortBy : String) (cases : List CaseItem) : List CaseItem :=
  if sortBy = "Newest" then List.insertionSort leNewest cases
  else if sortBy = "Oldest" then List.insertionSort leOldest cases
  else if sortBy = "Most Cited" then List.insertionSort leMostCited cases
  else if sortBy = "Least Cited" then List.insertionSort leLeastCited cases
  else cases

/-- The backend query response as consumed by the component (only the
`cases` member is read by `sortedAndFilteredCases`). -/
structure QueryResult where
  cases : Option (List CaseItem)
deriving DecidableEq, Repr

/-- QueryParser.js `sortedAndFilteredCases`: guard `!result?.cases`, copy,
filter by court, filter by citation count, sort by `sortBy`, and return the
whole resulting list (the component renders every element of it). -/
def sortedAndFilteredCases (st : ViewState) (result : Option QueryResult) : List CaseItem :=
  match result with
  | none => []
  | some r =>
    match r.cases with
    | none => []
    | some cs => sortCases st.sortBy (filteredCases st cs)

/-! ### Embedded-JSON extraction (CitationsSection.js)

The component tries, inside one `try`/`catch`:
1. the markdown fence regex `/```json\n([\s\S]*?)\n```/` and, on a match,
   `JSON.parse` of capture group 1;
2. otherwise the bare-brace regex `/\{[\s\S]*\}/` (first `{` through the
   last `}`) and `JSON.parse` of the whole match.
A parse exception aborts the whole block (strategy 2 is not retried after a
strategy-1 parse failure), leaving the extracted data `null`. -/

/-- JSON values as produced by `JSON.parse`; numbers are kept exactly as
`mantissa * 10 ^ exponent` (floating-point rounding is not modelled, no
claim here depends on it). -/
inductive Json where
  | null
  | bool (b : Bool)
  | num (mantissa exponent : Int)
  | str (s : List Char)
  | arr (elems : List Json)
  | obj (members : List (List Char × Json))
deriving Repr

/-- JSON insignificant whitespace. -/
def isJsonWs (c : Char) : Bool :=
  c = ' ' ∨ c = '\n' ∨ c = '\t' ∨ c = '\r'

def skipWs : List Char → List Char
  | [] => []
  | c :: rest => if isJsonWs c then skipWs rest else c :: rest

def hexVal? (c : Char) : Option Nat :=
  if '0' ≤ c ∧ c ≤ '9' then some (c.toNat - '0'.toNat)
  else if 'a' ≤ c ∧ c ≤ 'f' then some (c.toNat - 'a'.toNat + 10)
  else if 'A' ≤ c ∧ c ≤ 'F' then some (c.toNat - 'A'.toNat + 10)
  else none

/-- Single-character JSON string escapes. -/
def escChar? (c : Char) : Option Char :=
  if c = '"' then some '"'
  else if c = '\\' then some '\\'
  else if c = '/' then some '/'
  else if c = 'b' then some (Char.ofNat 8)
  else if c = 'f' then some (Char.ofNat 12)
  else if c = 'n' then some '\n'
  else if c = 'r' then some '\r'
  else if c = 't' then some '\t'
  else none

/-- Body of a JSON string literal after the opening quote; returns the
decoded characters and the remaining input after the closing quote.
Surrogate-pair recombination of `\uXXXX` escapes is not modelled. -/
def parseStringLit : Nat → List Char → Option (List Char × List Char)
  | 0, _ => none
  | _ + 1, [] => none
  | fuel + 1, c :: rest =>
    if c = '"' then some ([], rest)
    else if c = '\\' then
      match rest with
      | [] => none
      | e :: rest2 =>
        if e = 'u' then
          match rest2 with
          | h1 :: h2 :: h3 :: h4 :: rest3 =>
            match hexVal? h1, hexVal? h2, hexVal? h3, hexVal? h4 with
            | some a, some b, some c2, some d =>
              match parseStringLit fuel rest3 with
              | some (cs, rem) =>
                some (Char.ofNat (((a * 16 + b) * 16 + c2) * 16 + d) :: cs, rem)
              | none => none
            | _, _, _, _ => none
          | _ => none
        else
          match escChar? e with
          | some ec =>
            match parseStringLit fuel rest2 with
            | some (cs, rem) => some (ec :: cs, rem)
            | none => none
          | none => none
    else if c.toNat < 32 then none
    else
      match parseStringLit fuel rest with
      | some (cs, rem) => some (c :: cs, rem)
      | none => none

def digitsVal (ds : List Char) : Nat :=
  ds.foldl (fun acc c => acc * 10 + (c.toNat - '0'.toNat)) 0

/-- A nonempty run of decimal digits. -/
def parseDigitRun (s : List Char) : Option (List Char × List Char) :=
  let p := s.span Char.isDigit
  if p.1.isEmpty then none else some p

/-- Integer part: digits without a superfluous leading zero. -/
def parseIntPart (s : List Char) : Option (List Char × List Char) :=
  match parseDigitRun s with
  | none => none
  | some (ds, r) => if 1 < ds.length ∧ ds.headD ' ' = '0' then none else some (ds, r)

/-- Optional fraction part; yields the fraction digits (`[]` when absent). -/
def parseFracPart : List Char → Option (List Char × List Char)
  | '.' :: r => parseDigitRun r
  | s => some ([], s)

/-- Optional exponent part; yields the signed exponent (`0` when absent). -/
def parseExpPart : List Char → Option (Int × List Char)
  | [] => some (0, [])
  | e :: r =>
    if e = 'e' ∨ e = 'E' then
      match r with
      | '+' :: r2 => (parseDigitRun r2).map (fun p => ((digitsVal p.1 : Int), p.2))
      | '-' :: r2 => (parseDigitRun r2).map (fun p => (-(digitsVal p.1 : Int), p.2))
      | _ => (parseDigitRun r).map (fun p => ((digitsVal p.1 : Int), p.2))
    else some (0, e :: r)

/-- A JSON number literal. -/
def parseNumber (s : List Char) : Option (Json × List Char) :=
  let sp : Bool × List Char := match s with | '-' :: r => (true, r) | _ => (false, s)
  match parseIntPart sp.2 with
  | none => none
  | some (ids, s2) =>
    match parseFracPart s2 with
    | none => none
    | some (fds, s3) =>
      match parseExpPart s3 with
      | none => none
      | some (ex, s4) =>
        let m : Int := (digitsVal (ids ++ fds) : Int)
        some (Json.num (if sp.1 then -m else m) (ex - fds.length), s4)

/-- Requests of the fused recursive-descent JSON parser (a single
fuel-structural function so that all parses reduce definitionally). -/
inductive PReq where
  | val
  | objRest
  | members
  | arrRest
  | elems
deriving DecidableEq, Repr

/-- Results of the fused parser. -/
inductive PRes where
  | v (j : Json) (rest : List Char)
  | kvs (l : List (List Char × Json)) (rest : List Char)
  | vs (l : List Json) (rest : List Char)
  | fail
deriving Repr

/-- One recursive-descent JSON grammar, ECMA-404 as accepted by
`JSON.parse`: `val` parses a value, `objRest`/`members` the inside of an
object after `{`, `arrRest`/`elems` the inside of an array after `[`. -/
def parseStep : Nat → PReq → List Char → PRes
  | 0, _, _ => .fail
  | fuel + 1, .val, s =>
    match skipWs s with
    | [] => .fail
    | c :: rest =>
      if c = '\x7b' then parseStep fuel .objRest rest
      else if c = '[' then parseStep fuel .arrRest rest
      else if c = '"' then
        match parseStringLit (rest.length + 1) rest with
        | some (cs, rem) => .v (Json.str cs) rem
        | none => .fail
      else if c = 't' then
        match rest with
        | 'r' :: 'u' :: 'e' :: r => .v (Json.bool true) r
        | _ => .fail
      else if c = 'f' then
        match rest with
        | 'a' :: 'l' :: 's' :: 'e' :: r => .v (Json.bool false) r
        | _ => .fail
      else if c = 'n' then
        match rest with
        | 'u' :: 'l' :: 'l' :: r => .v Json.null r
        | _ => .fail
      else
        match parseNumber (c :: rest) with
        | some (j, r) => .v j r
        | none => .fail
  | fuel + 1, .objRest, s =>
    match skipWs s with
    | '\x7d' :: r => .v (Json.obj []) r
    | s' =>
      match parseStep fuel .members s' with
      | .kvs l r => .v (Json.obj l) r
      | _ => .fail
  | fuel + 1, .members, s =>
    match skipWs s with
    | '"' :: r =>
      match parseStringLit (r.length + 1) r with
      | some (key, r2) =>
        match skipWs r2 with
        | ':' :: r3 =>
          match parseStep fuel .val r3 with
          | .v v r4 =>
            match skipWs r4 with
            | ',' :: r5 =>
              match parseStep fuel .members r5 with
              | .kvs l r6 => .kvs ((key, v) :: l) r6
              | _ => .fail
            | '\x7d' :: r5 => .kvs [(key, v)] r5
            | _ => .fail
          | _ => .fail
        | _ => .fail
      | none => .fail
    | _ => .fail
  | fuel + 1, .arrRest, s =>
    match skipWs s with
    | ']' :: r => .v (Json.arr []) r
    | s' =>
      match parseStep fuel .elems s' with
      | .vs l r => .v (Json.arr l) r
      | _ => .fail
  | fuel + 1, .elems, s =>
    match parseStep fuel .val s with
    | .v v r =>
      match skipWs r with
      | ',' :: r2 =>
        match parseStep fuel .elems r2 with
        | .vs l r3 => .vs (v :: l) r3
        | _ => .fail
      | ']' :: r2 => .vs [v] r2
      | _ => .fail
    | _ => .fail

/-- Model of `JSON.parse`: one value, then nothing but whitespace. The
fuel `s.length + 1` dominates the recursion depth, since every recursive
step first consumes at least one input character. -/
def jsonParse (s : List Char) : Option Json :=
  match parseStep (s.length + 1) .val s with
  | .v v rest => if (skipWs rest).isEmpty then some v else none
  | _ => none

/-- The fence-opening token of the regex `/```json\n([\s\S]*?)\n```/`. -/
def fenceOpen : List Char := "```json\n".data

/-- The fence-closing token of the same regex. -/
def fenceClose : List Char := "\n```".data

/-- Strategy 1's regex match: leftmost occurrence of the opening token,
then the lazily shortest interior up to the next closing token. -/
def fenceMatch (s : List Char) : Option (List Char) :=
  match findSub fenceOpen s with
  | none => none
  | some i =>
    let rest := s.drop (i + fenceOpen.length)
    match findSub fenceClose rest with
    | none => none
    | some j => some (rest.take j)

/-- Strategy 2's regex match `/\{[\s\S]*\}/`: from the first `{` through
the last `}` (greedy), provided the `}` comes after the `{`. -/
def braceMatch (s : List Char) : Option (List Char) :=
  match s.findIdx? (· = '\x7b'), s.reverse.findIdx? (· = '\x7d') with
  | some i, some k =>
    let j := s.length - 1 - k
    if i < j then some ((s.drop i).take (j - i + 1)) else none
  | _, _ => none

/-- The embedded-JSON extractor of CitationsSection.js: fenced-block
strategy first; on a fence match its interior is parsed and strategy 2 is
never consulted (a parse exception falls into the surrounding `catch`);
only when no fence matches is the bare-brace substring tried. -/
def extractJson (s : List Char) : Option Json :=
  match fenceMatch s with
  | some inner => jsonParse inner
  | none =>
    match braceMatch s with
    | some sub => jsonParse sub
    | none => none

/-! ### History-click behaviour (ChatInterface.js)

The sidebar history item `onClick` handler synchronously sets the query,
mode and error, then awaits `GET /api/user/results/by-query` for the
clicked `(query, timestamp)` pair and applies the response handler when the
request settles. There is no cache data structure and no check against the
currently selected entry: the handler runs the same state updates whenever
its own request settles. The model below is an event semantics — a `click`
event runs the synchronous part and issues a request, a `settle` event
resolves one in-flight request and runs its continuation. -/

structure HistoryItem where
  query : String
  timestamp : String
deriving DecidableEq, Repr

/-- JS truthiness of a parsed JSON value (`null`, `false`, `0`, `""` falsy). -/
def jsTruthy : Json → Bool
  | .null => false
  | .bool b => b
  | .num m _ => !(m = 0)
  | .str s => !s.isEmpty
  | .arr _ => true
  | .obj _ => true

def jsTruthyOpt : Option Json → Bool
  | some j => jsTruthy j
  | none => false

/-- The members of `response.data` the handler reads. -/
structure RespData where
  result : Option Json
  error : Option Json
deriving Repr

/-- How one awaited request settles: a response body (possibly falsy), or a
thrown transport/auth error. -/
inductive FetchOutcome where
  | ok (data : Option RespData)
  | err
deriving Repr

inductive ChatEvent where
  | click (item : HistoryItem)
  | settle (rid : Nat) (out : FetchOutcome)

def noResultsMsg : String := "No previous results found for this query"

def failedMsg : String := "Failed to load previous results"

/-- Component state touched by the handler, plus the in-flight request set
and the log of issued backend calls (`rid` = position in `calls`). -/
structure ChatState where
  query : Option String
  mode : String
  results : Option Json
  error : Option String
  pending : List (Nat × HistoryItem)
  calls : List HistoryItem
deriving Repr

def initChat : ChatState :=
  ⟨none, "query", none, none, [], []⟩

/-- Continuation of one settled request, exactly the handler's
`try`/`catch` tail: on `response.data && response.data.result &&
!response.data.error` commit the result, otherwise report no previous
results; on a thrown error report failure. The current selection is not
consulted. -/
def applyOutcome (s : ChatState) (out : FetchOutcome) : ChatState :=
  match out with
  | .ok data =>
    match data with
    | some d =>
      if jsTruthyOpt d.result ∧ !jsTruthyOpt d.error then
        { s with results := d.result }
      else
        { s with results := none, error := some noResultsMsg }
    | none => { s with results := none, error := some noResultsMsg }
  | .err => { s with results := none, error := some failedMsg }

def step (s : ChatState) (e : ChatEvent) : ChatState :=
  match e with
  | .click item =>
    { s with
      query := some item.query
      mode := "query"
      error := none
      pending := s.pending ++ [(s.calls.length, item)]
      calls := s.calls ++ [item] }
  | .settle rid out =>
    if s.pending.any (fun p => p.1 = rid) then
      applyOutcome { s with pending := s.pending.filter (fun p => !(p.1 = rid)) } out
    else s

def runEvents (evs : List ChatEvent) : ChatState :=
  evs.foldl step initChat

/-- The history items clicked in an event sequence, in order. -/
def clickedItems (evs : List ChatEvent) : List HistoryItem :=
  evs.filterMap (fun e => match e with | .click i => some i | _ => none)

/-! ### Citation status badge (CitationsSection.js `StatusBadge`) -/

/-- The literal `map` object of `StatusBadge`. -/
def statusClasses : List (String × String) :=
  [("VALID", "bg-green-100 text-green-800"),
   ("INVALID", "bg-red-100 text-red-800"),
   ("NEEDS_REVIEW", "bg-yellow-100 text-yellow-800")]

/-- The `label = status || 'NEEDS_REVIEW'` fallback. -/
def statusLabel (status : Option String) : String :=
  jsOrS status "NEEDS_REVIEW"

/-- The `map[label] || map.NEEDS_REVIEW` class fallback. -/
def statusClass (status : Option String) : String :=
  (statusClasses.lookup (statusLabel status)).getD "bg-yellow-100 text-yellow-800"

/-- The rendered badge: the displayed text and its CSS class. -/
structure StatusBadgeView where
  label : String
  badgeClass : String
deriving DecidableEq, Repr

def StatusBadge (status : Option String) : StatusBadgeView :=
  ⟨statusLabel status, statusClass status⟩

/-! ### Legal-citations disclosure (Results.js) -/

/-- The individual citation entries Results.js renders for a case: the
section exists only when `legal_citations` is present and nonempty, and
shows `legal_citations.slice(0, 6)` in input order. -/
def renderedCitations (c : CaseItem) : List String :=
  match c.legal_citations with
  | some l => if 0 < l.length then l.take 6 else []
  | none => []

/-- The `+N more citations` aggregate span, rendered only when more than 6
citations exist. -/
def moreCitationsNote (c : CaseItem) : Option String :=
  match c.legal_citations with
  | some l =>
    if 6 < l.length then some ("+" ++ toString (l.length - 6) ++ " more citations")
    else none
  | none => none

/-- Results.js case title `caseItem.title || caseItem.case_name || "Unknown Case"`. -/
def displayTitleResults (c : CaseItem) : String :=
  jsOrS c.title (jsOrS c.case_name "Unknown Case")

/-- QueryParser.js case title `caseItem.title || caseItem.summary?.case || "Unknown Case"`. -/
def displayTitleQP (c : CaseItem) : String :=
  jsOrS c.title (jsOrS (summaryCase c) "Unknown Case")

/-! ### Concrete inputs used by witnesses and counterexamples -/

/-- Text carrying both a fenced JSON object and stray brace-delimited JSON
outside the fence (the spec's extraction-priority scenario). -/
def exFencedAndBraces : List Char :=
  "Answer: \x7b\"b\":2\x7d\n```json\n\x7b\"a\":1\x7d\n``` done".data

/-- The interior of the fenced block of `exFencedAndBraces`. -/
def exFencedInner : List Char := "\x7b\"a\":1\x7d".data

/-- A case carrying only a decision date. -/
def cDated : CaseItem := { blankCase with date := some "2020-01-01" }

/-- A case with no date anywhere (its `getCaseDate` is `""`). -/
def cUndated : CaseItem := blankCase

/-- Twenty-three featureless cases, the spec's pagination example list. -/
def cases23 : List CaseItem := List.replicate 23 blankCase

/-- The component's initial state: `courtFilter ""`, `minCitations 0`,
`sortBy "Newest"`, `page 1`, `perPage 10`. -/
def defaultView : ViewState := ⟨"", 0, "Newest", 1, 10⟩

/-- First case of the spec's end-to-end payload. -/
def epCase1 : CaseItem :=
  { blankCase with case_id := some "1", citations_count := some 5, date := some "2020-01-01" }

/-- Second case of the spec's end-to-end payload. -/
def epCase2 : CaseItem :=
  { blankCase with case_id := some "2", citations_count := some 9, date := some "2023-01-01" }

/-- View state of the end-to-end scenario: `minCitations = 6`, Most Cited. -/
def epView : ViewState := ⟨"", 6, "Most Cited", 1, 10⟩

def histK : HistoryItem := ⟨"fourth amendment searches", "2024-03-01T10:00:00Z"⟩

def histK1 : HistoryItem := ⟨"contract breach damages", "2024-03-02T09:00:00Z"⟩

def histK2 : HistoryItem := ⟨"patent infringement tests", "2024-03-03T11:30:00Z"⟩

/-- A backend reply whose body carries neither `result` nor `error`: the
handler's NotFound branch. -/
def notFoundResp : FetchOutcome := .ok (some ⟨none, none⟩)

/-- A backend reply carrying a stored result payload. -/
def foundResp (j : Json) : FetchOutcome := .ok (some ⟨some j, none⟩)

/-- A case with a direct title. -/
def titledCase : CaseItem := { blankCase with title := some "Roe v. Wade" }

/-- A case titled only through `case_name`. -/
def namedCase : CaseItem := { blankCase with case_name := some "Marbury v. Madison" }

/-- A case titled only through `summary.case`. -/
def summaryTitledCase : CaseItem :=
  { blankCase with summary := some (.obj ⟨none, none, some "Gideon v. Wainwright", none⟩) }

/-- Two cases tied at three citations each. -/
def tieA : CaseItem := { blankCase with case_id := some "a", citations_count := some 3 }

def tieB : CaseItem := { blankCase with case_id := some "b", citations_count := some 3 }

/-- A case with eight legal citations. -/
def citedCase8 : CaseItem :=
  { blankCase with
    legal_citations := some ["c1", "c2", "c3", "c4", "c5", "c6", "c7", "c8"] }

/-! ### Supporting lemmas: character and lexicographic comparison -/

theorem charCmp_eq_lt {a b : Char} : charCmp a b = .lt ↔ a < b := by
  unfold charCmp
  split_ifs with h1 h2 <;> simp_all

theorem charCmp_eq_gt {a b : Char} : charCmp a b = .gt ↔ b < a := by
  unfold charCmp
  split_ifs with h1 h2 <;> simp_all
  exact le_of_lt h1

theorem charCmp_eq_eq {a b : Char} : charCmp a b = .eq ↔ a = b := by
  unfold charCmp
  split_ifs with h1 h2
  · simp_all [ne_of_lt h1]
  · simp_all [(ne_of_lt h2).symm]
  · simp [le_antisymm (le_of_not_lt h2) (le_of_not_lt h1)]

theorem lexCmpCh_nil_left (l : List Char) : lexCmpCh [] l ≠ .gt := by
  cases l <;> simp [lexCmpCh]

theorem lexCmpCh_nil_right {l : List Char} (h : lexCmpCh l [] ≠ .gt) : l = [] := by
  cases l with
  | nil => rfl
  | cons c cs => simp [lexCmpCh] at h

theorem lexCmpCh_total (a b : List Char) : lexCmpCh a b ≠ .gt ∨ lexCmpCh b a ≠ .gt := by
  induction a generalizing b with
  | nil => exact Or.inl (lexCmpCh_nil_left b)
  | cons x xs ih =>
    cases b with
    | nil => exact Or.inr (lexCmpCh_nil_left _)
    | cons y ys =>
      rcases hc : charCmp x y with hlt | heq | hgt
      · exact Or.inl (by simp [lexCmpCh, hc])
      · have hyx : charCmp y x = .eq := charCmp_eq_eq.mpr (charCmp_eq_eq.mp hc).symm
        rcases ih ys with h | h
        · exact Or.inl (by simpa [lexCmpCh, hc] using h)
        · exact Or.inr (by simpa [lexCmpCh, hyx] using h)
      · have hyx : charCmp y x = .lt := charCmp_eq_lt.mpr (charCmp_eq_gt.mp hc)
        exact Or.inr (by simp [lexCmpCh, hyx])

theorem lexCmpCh_le_trans {a b c : List Char}
    (h1 : lexCmpCh a b ≠ .gt) (h2 : lexCmpCh b c ≠ .gt) : lexCmpCh a c ≠ .gt := by
  induction a generalizing b c with
  | nil => exact lexCmpCh_nil_left c
  | cons x xs ih =>
    cases b with
    | nil => simp [lexCmpCh] at h1
    | cons y ys =>
      cases c with
      | nil => simp [lexCmpCh] at h2
      | cons z zs =>
        rcases hxy : charCmp x y with h | h | h
        · rcases hyz : charCmp y z with g | g | g
          · have : x < z := lt_trans (charCmp_eq_lt.mp hxy) (charCmp_eq_lt.mp hyz)
            simp [lexCmpCh, charCmp_eq_lt.mpr this]
          · have hyzeq := charCmp_eq_eq.mp hyz
            have : x < z := hyzeq ▸ charCmp_eq_lt.mp hxy
            simp [lexCmpCh, charCmp_eq_lt.mpr this]
          · simp [lexCmpCh, hyz] at h2
        · have hxyeq := charCmp_eq_eq.mp hxy
          rcases hyz : charCmp y z with g | g | g
          · have : x < z := hxyeq ▸ charCmp_eq_lt.mp hyz
            simp [lexCmpCh, charCmp_eq_lt.mpr this]
          · have hyzeq := charCmp_eq_eq.mp hyz
            have hxz : charCmp x z = .eq := charCmp_eq_eq.mpr (hxyeq.trans hyzeq)
            simp only [lexCmpCh, hxy] at h1
            simp only [lexCmpCh, hyz] at h2
            simp [lexCmpCh, hxz]
            exact ih h1 h2
          · simp [lexCmpCh, hyz] at h2
        · simp [lexCmpCh, hxy] at h1

theorem localeCompare_le_zero {s t : String} :
    localeCompare s t ≤ 0 ↔ lexCmpCh s.data t.data ≠ .gt := by
  unfold localeCompare
  rcases h : lexCmpCh s.data t.data <;> simp

theorem localeCompare_empty_right {s : String} (h : localeCompare s "" ≤ 0) : s = "" := by
  have h2 := lexCmpCh_nil_right (localeCompare_le_zero.mp h)
  cases s
  simp_all

/-! ### Supporting lemmas: the four sort relations -/

instance : IsTotal CaseItem leNewest :=
  ⟨fun a b => by
    unfold leNewest cmpNewest
    rcases lexCmpCh_total (getCaseDate b).data (getCaseDate a).data with h | h
    · exact Or.inl (localeCompare_le_zero.mpr h)
    · exact Or.inr (localeCompare_le_zero.mpr h)⟩

instance : IsTrans CaseItem leNewest :=
  ⟨fun a b c h1 h2 => by
    unfold leNewest cmpNewest at *
    exact localeCompare_le_zero.mpr
      (lexCmpCh_le_trans (localeCompare_le_zero.mp h2) (localeCompare_le_zero.mp h1))⟩

instance : IsTotal CaseItem leOldest :=
  ⟨fun a b => by
    unfold leOldest cmpOldest
    rcases lexCmpCh_total (getCaseDate a).data (getCaseDate b).data with h | h
    · exact Or.inl (localeCompare_le_zero.mpr h)
    · exact Or.inr (localeCompare_le_zero.mpr h)⟩

instance : IsTrans CaseItem leOldest :=
  ⟨fun a b c h1 h2 => by
    unfold leOldest cmpOldest at *
    exact localeCompare_le_zero.mpr
      (lexCmpCh_le_trans (localeCompare_le_zero.mp h1) (localeCompare_le_zero.mp h2))⟩

instance : IsTotal CaseItem leMostCited :=
  ⟨fun a b => by unfold leMostCited cmpMostCited; omega⟩

instance : IsTrans CaseItem leMostCited :=
  ⟨fun a b c h1 h2 => by unfold leMostCited cmpMostCited at *; omega⟩

instance : IsTotal CaseItem leLeastCited :=
  ⟨fun a b => by unfold leLeastCited cmpLeastCited; omega⟩

instance : IsTrans CaseItem leLeastCited :=
  ⟨fun a b c h1 h2 => by unfold leLeastCited cmpLeastCited at *; omega⟩

theorem sortCases_newest (l : List CaseItem) :
    sortCases "Newest" l = List.insertionSort leNewest l := by
  simp +decide [sortCases]

theorem sortCases_oldest (l : List CaseItem) :
    sortCases "Oldest" l = List.insertionSort leOldest l := by
  simp +decide [sortCases]

theorem sortCases_most (l : List CaseItem) :
    sortCases "Most Cited" l = List.insertionSort leMostCited l := by
  simp +decide [sortCases]

theorem sortCases_least (l : List CaseItem) :
    sortCases "Least Cited" l = List.insertionSort leLeastCited l := by
  simp +decide [sortCases]

theorem mem_sortCases {k : String} {l : List CaseItem} {c : CaseItem} :
    c ∈ sortCases k l ↔ c ∈ l := by
  unfold sortCases
  split_ifs <;> simp

theorem length_sortCases (k : String) (l : List CaseItem) :
    (sortCases k l).length = l.length := by
  unfold sortCases
  split_ifs <;> simp

theorem findSub_nil_pat (l : List Char) : findSub [] l = some 0 := by
  cases l <;> simp [findSub, List.isPrefixOf]

theorem containsCI_empty (s : String) : containsCI s "" = true := by
  show (findSub [] (s.data.map Char.toLower)).isSome = true
  rw [findSub_nil_pat]
  rfl

/-- C1: on any text where the markdown-json fence matches, `extractJson`
parses exactly the fenced interior; the bare-brace strategy is never
consulted, so the content between the outer braces is never returned. -/
theorem C1_extract_fence_priority (t inner : List Char)
    (hfence : fenceMatch t = some inner) (_hbrace : (braceMatch t).isSome = true) :
    extractJson t = jsonParse inner := by
  unfold extractJson
  rw [hfence]

/-- Witness for C1 on the spec's own scenario: stray braces around
`"b":2` outside the fence, `{"a":1}` inside it. -/
theorem C1_extract_fence_priority_witness :
    extractJson exFencedAndBraces = jsonParse exFencedInner
    ∧ jsonParse exFencedInner = some (Json.obj [("a".data, Json.num 1 0)]) :=
  ⟨C1_extract_fence_priority exFencedAndBraces exFencedInner (by rfl) (by rfl), by rfl⟩

/-- C2 (amended): under `Newest` the list is descending in the
lexicographic date order with empty-dated cases last; under `Oldest` it is
ascending with empty-dated cases FIRST (an empty string is the minimum of
the lexicographic order, so the original claim's "empty dates sort last
regardless of direction" fails for `Oldest`). -/
theorem C2_sort_empty_date_position (cases : List CaseItem) :
    (List.Pairwise (fun a b => localeCompare (getCaseDate b) (getCaseDate a) ≤ 0)
        (sortCases "Newest" cases)
      ∧ List.Pairwise (fun a b => getCaseDate a = "" → getCaseDate b = "")
        (sortCases "Newest" cases))
    ∧ (List.Pairwise (fun a b => localeCompare (getCaseDate a) (getCaseDate b) ≤ 0)
        (sortCases "Oldest" cases)
      ∧ List.Pairwise (fun a b => getCaseDate b = "" → getCaseDate a = "")
        (sortCases "Oldest" cases)) := by
  have hN : List.Pairwise leNewest (sortCases "Newest" cases) := by
    rw [sortCases_newest]; exact List.sorted_insertionSort leNewest cases
  have hO : List.Pairwise leOldest (sortCases "Oldest" cases) := by
    rw [sortCases_oldest]; exact List.sorted_insertionSort leOldest cases
  refine ⟨⟨hN, hN.imp ?_⟩, hO, hO.imp ?_⟩
  · intro a b hab ha
    unfold leNewest cmpNewest at hab
    rw [ha] at hab
    exact localeCompare_empty_right hab
  · intro a b hab hb
    unfold leOldest cmpOldest at hab
    rw [hb] at hab
    exact localeCompare_empty_right hab

/-- Witness for C2 on a two-element list. -/
theorem C2_sort_empty_date_position_witness :
    List.Pairwise (fun a b => localeCompare (getCaseDate a) (getCaseDate b) ≤ 0)
      (sortCases "Oldest" [cDated, cUndated])
    ∧ List.Pairwise (fun a b => getCaseDate b = "" → getCaseDate a = "")
      (sortCases "Oldest" [cDated, cUndated]) :=
  (C2_sort_empty_date_position [cDated, cUndated]).2

/-- Counterexample for C2 as stated: under `Oldest`, the undated case is
placed BEFORE the dated one, not after it. -/
theorem C2_counterexample :
    sortCases "Oldest" [cDated, cUndated] = [cUndated, cDated]
    ∧ getCaseDate cUndated = "" ∧ getCaseDate cDated ≠ "" := by
  refine ⟨by decide, rfl, by decide⟩

/-- C3 (amended): the component performs no client-side pagination — the
rendered list is the whole filtered list (same length, no slice) and is
invariant under any change of `page` and `perPage`; those two values are
only sent to the backend inside the `handleSubmit` request body. -/
theorem C3_no_client_pagination (st : ViewState) (cs : List CaseItem) (p pp : Nat) :
    (sortedAndFilteredCases st (some ⟨some cs⟩)).length = (filteredCases st cs).length
    ∧ sortedAndFilteredCases { st with page := p, perPage := pp } (some ⟨some cs⟩)
      = sortedAndFilteredCases st (some ⟨some cs⟩) :=
  ⟨length_sortCases _ _, rfl⟩

/-- Witness for C3 at the spec's 23-item example. -/
theorem C3_no_client_pagination_witness :
    (sortedAndFilteredCases defaultView (some ⟨some cases23⟩)).length
      = (filteredCases defaultView cases23).length
    ∧ sortedAndFilteredCases { defaultView with page := 5, perPage := 10 }
        (some ⟨some cases23⟩)
      = sortedAndFilteredCases defaultView (some ⟨some cases23⟩) :=
  C3_no_client_pagination defaultView cases23 5 10

/-- Counterexample for C3 as stated: for the 23-item list with
`perPage = 10` and `page = 1` the claim predicts a 10-element slice (and
`totalPages = 3`), but the component renders all 23 cases; no slice, clamp
or `totalPages` computation exists. -/
theorem C3_counterexample :
    (sortedAndFilteredCases defaultView (some ⟨some cases23⟩)).length = 23
    ∧ (sortedAndFilteredCases defaultView (some ⟨some cases23⟩)).length ≠
        defaultView.perPage := by
  refine ⟨by decide, by decide⟩

theorem applyOutcome_calls (s : ChatState) (out : FetchOutcome) :
    (applyOutcome s out).calls = s.calls := by
  cases out with
  | err => rfl
  | ok data =>
    cases data with
    | none => rfl
    | some d =>
      show (if jsTruthyOpt d.result ∧ !jsTruthyOpt d.error then
              { s with results := d.result }
            else { s with results := none, error := some noResultsMsg }).calls = s.calls
      split <;> rfl

theorem step_settle_calls (s : ChatState) (rid : Nat) (out : FetchOutcome) :
    (step s (.settle rid out)).calls = s.calls := by
  simp only [step]
  split
  · exact applyOutcome_calls _ _
  · rfl

theorem foldl_step_calls (evs : List ChatEvent) (s : ChatState) :
    (evs.foldl step s).calls = s.calls ++ clickedItems evs := by
  induction evs generalizing s with
  | nil => simp [clickedItems]
  | cons e evs ih =>
    cases e with
    | click i =>
      rw [List.foldl_cons, ih]
      simp [step, clickedItems, List.filterMap_cons]
    | settle rid out =>
      rw [List.foldl_cons, ih, step_settle_calls]
      simp [clickedItems, List.filterMap_cons]

/-- C4 (amended): the handler caches nothing — every history click issues
exactly one new backend call, whatever the outcome of earlier resolutions
of the same key was (`NotFound` outcomes are re-requested just like
failures; the original claim's negative caching does not exist). -/
theorem C4_every_click_issues_call (evs : List ChatEvent) :
    (runEvents evs).calls = clickedItems evs := by
  have h := foldl_step_calls evs initChat
  simpa [runEvents, initChat] using h

/-- Witness for C4: click, NotFound settlement, second click of the same
key — two backend calls. -/
theorem C4_every_click_issues_call_witness :
    (runEvents [.click histK, .settle 0 notFoundResp, .click histK]).calls
      = clickedItems [.click histK, .settle 0 notFoundResp, .click histK] :=
  C4_every_click_issues_call [.click histK, .settle 0 notFoundResp, .click histK]

/-- Counterexample for C4 as stated: after a first resolve of `histK`
settles as NotFound (the handler reports "no previous results"), a second
resolve of the same key issues a second backend call — the call log has
length 2, not the 1 the remembered-NotFound claim predicts. -/
theorem C4_counterexample :
    (runEvents [.click histK, .settle 0 notFoundResp]).error = some noResultsMsg
    ∧ (runEvents [.click histK, .settle 0 notFoundResp, .click histK]).calls
        = [histK, histK]
    ∧ (runEvents [.click histK, .settle 0 notFoundResp, .click histK]).calls.length
        ≠ 1 := by
  refine ⟨rfl, rfl, by decide⟩

/-- C5 (amended): there is no stale-result guard — when the request issued
by an earlier click settles successfully after the selection has moved to a
different history entry, its payload is still committed to the view state
(the handler applies its continuation unconditionally). -/
theorem C5_stale_result_applied (k1 k2 : HistoryItem) (j : Json)
    (hj : jsTruthy j = true) :
    (runEvents [.click k1, .click k2, .settle 0 (foundResp j)]).results = some j
    ∧ (runEvents [.click k1, .click k2, .settle 0 (foundResp j)]).query
        = some k2.query := by
  constructor <;>
    simp [runEvents, initChat, step, foundResp, applyOutcome, jsTruthyOpt, hj]

/-- Witness for C5 with two distinct history entries. -/
theorem C5_stale_result_applied_witness :
    (runEvents [.click histK1, .click histK2, .settle 0 (foundResp (Json.obj []))]).results
      = some (Json.obj [])
    ∧ (runEvents [.click histK1, .click histK2, .settle 0 (foundResp (Json.obj []))]).query
      = some histK2.query :=
  C5_stale_result_applied histK1 histK2 (Json.obj []) rfl

/-- Counterexample for C5 as stated: with `histK2` selected after
`histK1`, the late settlement of `histK1`'s request still overwrites the
displayed results. -/
theorem C5_counterexample :
    (runEvents [.click histK1, .click histK2, .settle 0 (foundResp (Json.obj []))]).query
      = some histK2.query
    ∧ histK2.query ≠ histK1.query
    ∧ (runEvents [.click histK1, .click histK2, .settle 0 (foundResp (Json.obj []))]).results
      = some (Json.obj []) := by
  refine ⟨rfl, by decide, rfl⟩

/-- C6: whenever the direct `title`, the `case_name` field and the nested
`summary.case` field are all absent, both title resolvers display exactly
"Unknown Case"; resolution is first-match-wins with the direct `title`
first, then the component's case-name fallback (`summary.case` in
QueryParser.js, `case_name` in Results.js), then the literal. -/
theorem C6_title_fallback (c : CaseItem) :
    (c.title = none → c.case_name = none → summaryCase c = none →
      displayTitleQP c = "Unknown Case" ∧ displayTitleResults c = "Unknown Case")
    ∧ (∀ t, c.title = some t → t ≠ "" →
      displayTitleQP c = t ∧ displayTitleResults c = t)
    ∧ (∀ s, c.title = none → summaryCase c = some s → s ≠ "" →
      displayTitleQP c = s)
    ∧ (∀ n, c.title = none → c.case_name = some n → n ≠ "" →
      displayTitleResults c = n) := by
  refine ⟨?_, ?_, ?_, ?_⟩
  · intro h1 h2 h3
    simp [displayTitleQP, displayTitleResults, jsOrS, h1, h2, h3]
  · intro t ht htne
    simp [displayTitleQP, displayTitleResults, jsOrS, ht, htne]
  · intro s h1 hs hsne
    simp [displayTitleQP, jsOrS, h1, hs, hsne]
  · intro n h1 hn hnne
    simp [displayTitleResults, jsOrS, h1, hn, hnne]

/-- Witness for C6 on four concrete records exercising each fallback. -/
theorem C6_title_fallback_witness :
    (displayTitleQP blankCase = "Unknown Case"
      ∧ displayTitleResults blankCase = "Unknown Case")
    ∧ displayTitleQP titledCase = "Roe v. Wade"
    ∧ displayTitleQP summaryTitledCase = "Gideon v. Wainwright"
    ∧ displayTitleResults namedCase = "Marbury v. Madison" :=
  ⟨(C6_title_fallback blankCase).1 rfl rfl rfl,
   ((C6_title_fallback titledCase).2.1 "Roe v. Wade" rfl (by decide)).1,
   (C6_title_fallback summaryTitledCase).2.2.1 "Gideon v. Wainwright" rfl rfl (by decide),
   (C6_title_fallback namedCase).2.2.2 "Marbury v. Madison" rfl rfl (by decide)⟩

/-- C7: a case is in the view exactly when its court string contains the
court filter case-insensitively AND its citation count (defaulting to 0)
is at least `minCitations`; an empty court filter passes every case; on the
spec's end-to-end payload with `minCitations = 6` under Most Cited, the
view holds only the case with id "2". -/
theorem C7_filter_semantics (st : ViewState) (cs : List CaseItem) (c : CaseItem) :
    (c ∈ sortedAndFilteredCases st (some ⟨some cs⟩) ↔
      c ∈ cs ∧ containsCI (courtString c) st.courtFilter = true
        ∧ st.minCitations ≤ citationsCount c)
    ∧ (∀ s : String, containsCI s "" = true)
    ∧ sortedAndFilteredCases epView (some ⟨some [epCase1, epCase2]⟩) = [epCase2] := by
  refine ⟨?_, containsCI_empty, by decide⟩
  show c ∈ sortCases st.sortBy (filteredCases st cs) ↔ _
  rw [mem_sortCases]
  unfold filteredCases
  by_cases h : st.courtFilter = ""
  · simp [h, List.mem_filter, containsCI_empty]
  · simp [h, List.mem_filter, and_assoc]
    tauto

/-- Witness for C7 at the end-to-end payload. -/
theorem C7_filter_semantics_witness :
    (epCase2 ∈ sortedAndFilteredCases epView (some ⟨some [epCase1, epCase2]⟩) ↔
      epCase2 ∈ [epCase1, epCase2]
        ∧ containsCI (courtString epCase2) epView.courtFilter = true
        ∧ epView.minCitations ≤ citationsCount epCase2)
    ∧ sortedAndFilteredCases epView (some ⟨some [epCase1, epCase2]⟩) = [epCase2] :=
  ⟨(C7_filter_semantics epView [epCase1, epCase2] epCase2).1,
   (C7_filter_semantics epView [epCase1, epCase2] epCase2).2.2⟩

/-- C8: the Most Cited and Least Cited sorts are stable — an in-order pair
of cases with equal citation counts stays in its input order. -/
theorem C8_tie_stability (l : List CaseItem) (a b : CaseItem)
    (hcit : citationsCount a = citationsCount b) (hpair : List.Sublist [a, b] l) :
    List.Sublist [a, b] (sortCases "Most Cited" l)
    ∧ List.Sublist [a, b] (sortCases "Least Cited" l) := by
  constructor
  · rw [sortCases_most]
    exact List.pair_sublist_insertionSort
      (by unfold leMostCited cmpMostCited; omega) hpair
  · rw [sortCases_least]
    exact List.pair_sublist_insertionSort
      (by unfold leLeastCited cmpLeastCited; omega) hpair

/-- Witness for C8 on two cases tied at three citations. -/
theorem C8_tie_stability_witness :
    List.Sublist [tieA, tieB] (sortCases "Most Cited" [tieA, tieB])
    ∧ List.Sublist [tieA, tieB] (sortCases "Least Cited" [tieA, tieB]) :=
  C8_tie_stability [tieA, tieB] tieA tieB rfl (List.Sublist.refl _)

/-- C9 (amended): an absent or empty status is replaced by NEEDS_REVIEW,
and a recognized status keeps its own style; but an unrecognized non-empty
status string is displayed verbatim — only its badge STYLE falls back to
the NEEDS_REVIEW style (the original claim's "replaced by NEEDS_REVIEW
before display" fails for unrecognized values). -/
theorem C9_status_badge (status : Option String) :
    (status = none →
      StatusBadge status = ⟨"NEEDS_REVIEW", "bg-yellow-100 text-yellow-800"⟩)
    ∧ (status = some "" →
      StatusBadge status = ⟨"NEEDS_REVIEW", "bg-yellow-100 text-yellow-800"⟩)
    ∧ (∀ s, status = some s → s ≠ "" → (StatusBadge status).label = s)
    ∧ (∀ s, status = some s → s ∉ ["VALID", "INVALID", "NEEDS_REVIEW"] →
      (StatusBadge status).badgeClass = "bg-yellow-100 text-yellow-800") := by
  refine ⟨?_, ?_, ?_, ?_⟩
  · intro h; subst h; rfl
  · intro h; subst h; rfl
  · intro s h hne
    subst h
    simp [StatusBadge, statusLabel, jsOrS, hne]
  · intro s h hmem
    subst h
    simp only [List.mem_cons, List.not_mem_nil, or_false, not_or] at hmem
    by_cases hse : s = ""
    · subst hse; rfl
    · have h1 : (s == "VALID") = false := beq_eq_false_iff_ne.mpr hmem.1
      have h2 : (s == "INVALID") = false := beq_eq_false_iff_ne.mpr hmem.2.1
      have h3 : (s == "NEEDS_REVIEW") = false := beq_eq_false_iff_ne.mpr hmem.2.2
      simp [StatusBadge, statusClass, statusLabel, jsOrS, statusClasses,
        List.lookup, hse, h1, h2, h3]

/-- Witness for C9 at an absent status and at the unrecognized status
"UNVERIFIED". -/
theorem C9_status_badge_witness :
    StatusBadge none = ⟨"NEEDS_REVIEW", "bg-yellow-100 text-yellow-800"⟩
    ∧ (StatusBadge (some "UNVERIFIED")).label = "UNVERIFIED"
    ∧ (StatusBadge (some "UNVERIFIED")).badgeClass = "bg-yellow-100 text-yellow-800" :=
  ⟨(C9_status_badge none).1 rfl,
   (C9_status_badge (some "UNVERIFIED")).2.2.1 "UNVERIFIED" rfl (by decide),
   (C9_status_badge (some "UNVERIFIED")).2.2.2 "UNVERIFIED" rfl (by decide)⟩

/-- Counterexample for C9 as stated: the unrecognized status "UNVERIFIED"
reaches the presentation layer verbatim instead of being replaced by
NEEDS_REVIEW. -/
theorem C9_counterexample :
    (StatusBadge (some "UNVERIFIED")).label = "UNVERIFIED"
    ∧ "UNVERIFIED" ∉ ["VALID", "INVALID", "NEEDS_REVIEW"]
    ∧ (StatusBadge (some "UNVERIFIED")).label ≠ "NEEDS_REVIEW" := by
  refine ⟨rfl, by decide, by decide⟩

/-- C10: for a case with `n` legal citations the Results view renders the
first `min n 6` of them in input order, plus — exactly when `n > 6` — a
single aggregate note "+(n-6) more citations"; the underlying list is
untouched (the rendered slice and the dropped tail still concatenate to
it). -/
theorem C10_citations_disclosure (c : CaseItem) (l : List String)
    (h : c.legal_citations = some l) :
    (renderedCitations c).length = min l.length 6
    ∧ renderedCitations c = l.take 6
    ∧ renderedCitations c ++ l.drop 6 = l
    ∧ (6 < l.length →
      moreCitationsNote c = some ("+" ++ toString (l.length - 6) ++ " more citations"))
    ∧ (l.length ≤ 6 → moreCitationsNote c = none) := by
  have hr : renderedCitations c = l.take 6 := by
    unfold renderedCitations
    rw [h]
    by_cases h0 : 0 < l.length
    · simp [h0]
    · have hl : l = [] := List.length_eq_zero.mp (by omega)
      simp [hl]
  refine ⟨?_, hr, ?_, ?_, ?_⟩
  · rw [hr, List.length_take, Nat.min_comm]
  · rw [hr]; exact List.take_append_drop 6 l
  · intro h6
    unfold moreCitationsNote
    rw [h]
    simp [h6]
  · intro h6
    unfold moreCitationsNote
    rw [h]
    simp
    omega

/-- Witness for C10 at a case with eight citations. -/
theorem C10_citations_disclosure_witness :
    renderedCitations citedCase8 = ["c1", "c2", "c3", "c4", "c5", "c6"]
    ∧ moreCitationsNote citedCase8 = some "+2 more citations" := by
  have h := C10_citations_disclosure citedCase8
    ["c1", "c2", "c3", "c4", "c5", "c6", "c7", "c8"] rfl
  exact ⟨h.2.1.trans (by decide), (h.2.2.2.1 (by decide)).trans (by decide)⟩
